import Mathlib

/-!
Verification of the inventory system module (`inventory_system.py`).

The module maintains a stock mapping from item name (text) to quantity
(integer), with operations `add_item`, `remove_item`, `get_qty`,
`load_data`, `save_data` and `check_low_items`.  We embed the mapping as
an association list with Python-dict semantics (lookup of the first
matching key, in-place update, deletion), embed Python's dynamic values
as an inductive type `PyVal` (note that in Python a boolean is an
instance of `int`), and embed the JSON file boundary at the value level:
a file either is missing, holds text that fails JSON parsing, or holds
text that parses to a JSON value.
-/

set_option autoImplicit false

namespace Inventory

/-- Dynamically typed Python values, as far as the module manipulates
them.  Python's `bool` is a subclass of `int`, which we record in
`isInstInt` below. -/
inductive PyVal where
  | int (n : Int)
  | bool (b : Bool)
  | str (s : String)
  | none
  | list (xs : List Int)
  deriving DecidableEq, Repr

/-- Embeds Python's `isinstance(v, str)`. -/
def isInstStr : PyVal → Bool
  | PyVal.str _ => true
  | _ => false

/-- Embeds Python's `isinstance(v, int)`: true for `int` and for `bool`
(in Python, `bool` is a subclass of `int`). -/
def isInstInt : PyVal → Bool
  | PyVal.int _ => true
  | PyVal.bool _ => true
  | _ => false

/-- The integer value of a Python `int` (`True` counts as 1 and `False`
as 0, as in Python arithmetic); only meaningful after `isInstInt`. -/
def toInt : PyVal → Int
  | PyVal.int n => n
  | PyVal.bool b => if b then 1 else 0
  | _ => 0

/-- The text of a Python `str`; only meaningful after `isInstStr`. -/
def strVal : PyVal → String
  | PyVal.str s => s
  | _ => ""

/-- Embeds Python's `str(v)` for the values `add_item` interpolates into
its log entry (after its type guard, the quantity is an `int` or a
`bool`). -/
def pyStr : PyVal → String
  | PyVal.int n => toString n
  | PyVal.bool b => if b then "True" else "False"
  | PyVal.str s => s
  | PyVal.none => "None"
  | PyVal.list _ => ""

/-- The stock mapping: a Python dict from item name to quantity,
embedded as an association list (insertion order preserved, keys
unique in every dict the module builds). -/
abbrev Stock := List (String × Int)

/-- Dict lookup `stock.get(k)`: the value at the first matching key. -/
def dget (s : Stock) (k : String) : Option Int :=
  match s with
  | [] => Option.none
  | kv :: rest => if kv.1 = k then some kv.2 else dget rest k

/-- Dict lookup with default, `stock.get(k, d)`. -/
def dgetD (s : Stock) (k : String) (d : Int) : Int :=
  (dget s k).getD d

/-- Dict assignment `stock[k] = v`: replaces the value at an existing
key in place, or appends the new key at the end. -/
def dset (s : Stock) (k : String) (v : Int) : Stock :=
  match s with
  | [] => [(k, v)]
  | kv :: rest => if kv.1 = k then (k, v) :: rest else kv :: dset rest k v

/-- Dict deletion `del stock[k]`: drops the entries whose key is `k`. -/
def derase (s : Stock) (k : String) : Stock :=
  match s with
  | [] => []
  | kv :: rest => if kv.1 = k then derase rest k else kv :: derase rest k

/-- Embeds `add_item(stock_data, item, qty, logs)`.  If `item` is not a
`str` or `qty` is not an `int`, a warning is logged to the diagnostic
sink (not modelled) and the mapping is returned unchanged.  Otherwise
the quantity is incremented (the key created with value `qty` when
absent) and a log entry is appended to `logs`.  `now` stands for
`datetime.now()`.  Returns the mapping together with the caller's
mutated `logs` list. -/
def add_item (stock_data : Stock) (item qty : PyVal) (now : String)
    (logs : List String) : Stock × List String :=
  if !(isInstStr item && isInstInt qty) then
    (stock_data, logs)
  else
    (dset stock_data (strVal item) (dgetD stock_data (strVal item) 0 + toInt qty),
     logs ++ [now ++ ": Added " ++ pyStr qty ++ " of " ++ strVal item])

/-- Embeds `remove_item(stock_data, item, qty)`.  `stock_data[item] -= qty`
raises `KeyError` when the item is absent (caught: mapping returned
unchanged) and `TypeError` when `qty` does not support integer
subtraction (caught: mapping returned unchanged).  After a successful
decrement, a resulting quantity ≤ 0 deletes the key. -/
def remove_item (stock_data : Stock) (item : String) (qty : PyVal) : Stock :=
  match dget stock_data item with
  | Option.none => stock_data
  | some v =>
    if isInstInt qty then
      let s2 := dset stock_data item (v - toInt qty)
      if v - toInt qty ≤ 0 then derase s2 item else s2
    else
      stock_data

/-- Embeds `get_qty(stock_data, item)`: `stock_data.get(item, 0)`. -/
def get_qty (stock_data : Stock) (item : String) : Int :=
  dgetD stock_data item 0

/-- Embeds `check_low_items(stock_data, threshold)`: the names of the
items with quantity strictly below the threshold, in mapping order. -/
def check_low_items (stock_data : Stock) (threshold : Int) : List String :=
  (stock_data.filter (fun kv => kv.2 < threshold)).map (fun kv => kv.1)

/-- JSON values, for the persisted-file boundary. -/
inductive JSON where
  | null
  | bool (b : Bool)
  | int (n : Int)
  | str (s : String)
  | arr (xs : List JSON)
  | obj (fields : List (String × JSON))

/-- What a path holds: no file at all (`FileNotFoundError` on open),
text that fails JSON parsing (`json.JSONDecodeError`), or text that
parses to a JSON value.  This embeds the `json` library boundary at the
value level. -/
inductive FileContent where
  | missing
  | invalid
  | value (j : JSON)

/-- The file system: what each path holds. -/
def FS := String → FileContent

/-- The JSON text `json.dump(stock_data, f, indent=4)` writes: an object
whose fields are the mapping's entries in iteration order. -/
def stockToJSON (stock_data : Stock) : JSON :=
  JSON.obj (stock_data.map (fun kv => (kv.1, JSON.int kv.2)))

/-- Embeds `save_data(stock_data, file)`: overwrites the named path with
the serialized mapping. -/
def save_data (stock_data : Stock) (file : String) (fs : FS) : FS :=
  fun p => if p = file then FileContent.value (stockToJSON stock_data) else fs p

/-- Embeds `load_data(file)`: returns the parsed JSON value of the file,
an empty dict when the file is missing (`FileNotFoundError` caught), and
an empty dict when its text fails JSON parsing (`json.JSONDecodeError`
caught).  A file that parses successfully is returned as parsed,
whatever JSON value it holds. -/
def load_data (fs : FS) (file : String) : JSON :=
  match fs file with
  | FileContent.missing => JSON.obj []
  | FileContent.invalid => JSON.obj []
  | FileContent.value j => j

/-- Reads a JSON value back as a stock mapping when it is an object all
of whose fields are integers; this is the spec's notion of the loaded
value being "a mapping ... from text keys to integer values". -/
def fieldsToStock : List (String × JSON) → Option Stock
  | [] => some []
  | (k, JSON.int n) :: rest => (fieldsToStock rest).map (fun s => (k, n) :: s)
  | _ => Option.none

/-- A JSON value as a stock mapping, when it is one. -/
def stockOfJSON : JSON → Option Stock
  | JSON.obj fields => fieldsToStock fields
  | _ => Option.none

/-- A single operation on the stock mapping, for invariant claims over
operation sequences. -/
inductive Op where
  | addOp (item qty : PyVal)
  | removeOp (item : String) (qty : PyVal)

/-- Runs one operation (the caller-held log list and the timestamp do
not affect the mapping). -/
def applyOp (s : Stock) : Op → Stock
  | Op.addOp item qty => (add_item s item qty "" []).1
  | Op.removeOp item qty => remove_item s item qty

/-- Runs a sequence of operations from the empty mapping. -/
def run (ops : List Op) : Stock :=
  ops.foldl applyOp []

/-- Every key present in the mapping has a strictly positive quantity. -/
def PosInv (s : Stock) : Prop :=
  ∀ k v, dget s k = some v → 0 < v

/-- An operation that, when it is an add that passes the type guard,
adds a strictly positive quantity. -/
def isPosAdd : Op → Bool
  | Op.addOp item qty => !(isInstStr item && isInstInt qty) || decide (0 < toInt qty)
  | Op.removeOp _ _ => true

/-! ### Dict lemmas -/

theorem dget_dset (s : Stock) (k k2 : String) (v : Int) :
    dget (dset s k v) k2 = if k2 = k then some v else dget s k2 := by
  induction s with
  | nil =>
    by_cases h : k2 = k
    · simp [dset, dget, h]
    · have h2 : ¬k = k2 := fun h3 => h h3.symm
      simp [dset, dget, h, h2]
  | cons kv rest ih =>
    by_cases hk : kv.1 = k
    · by_cases h2 : k2 = k
      · simp [dset, dget, hk, h2]
      · have h3 : ¬k = k2 := fun h4 => h2 h4.symm
        have h4 : ¬kv.1 = k2 := hk ▸ h3
        simp [dset, dget, hk, h2, h3, h4]
    · by_cases h2 : kv.1 = k2
      · have h3 : ¬k2 = k := fun h4 => hk (h2.trans h4)
        simp [dset, dget, hk, h2, h3]
      · simp [dset, dget, hk, h2, ih]

theorem dget_derase (s : Stock) (k k2 : String) :
    dget (derase s k) k2 = if k2 = k then Option.none else dget s k2 := by
  induction s with
  | nil => simp [derase, dget]
  | cons kv rest ih =>
    by_cases hk : kv.1 = k
    · by_cases h2 : k2 = k
      · subst h2
        simp [derase, dget, hk, ih]
      · have h3 : ¬k = k2 := fun h5 => h2 h5.symm
        have h4 : ¬kv.1 = k2 := hk ▸ h3
        simp [derase, dget, hk, h2, h3, h4, ih]
    · by_cases h2 : kv.1 = k2
      · have h3 : ¬k2 = k := fun h4 => hk (h2.trans h4)
        simp [derase, dget, hk, h2, h3]
      · simp [derase, dget, hk, h2, ih]

/-! ### Claim theorems -/

/-- C2: for every mapping, every text item name and every integer `qty`,
`add` then `get_qty` returns the quantity stored for the item before the
add (0 when absent) plus `qty`. -/
theorem add_then_get_qty (stock : Stock) (item : String) (qty : Int)
    (now : String) (logs : List String) :
    get_qty (add_item stock (PyVal.str item) (PyVal.int qty) now logs).1 item =
      get_qty stock item + qty := by
  simp [add_item, isInstStr, isInstInt, strVal, toInt, get_qty, dgetD, dget_dset]

/-- C3: removing at least the current quantity of a present item deletes
the key: the item is absent from the mapping afterwards. -/
theorem remove_ge_current_deletes (stock : Stock) (item : String) (v qty : Int)
    (hv : dget stock item = some v) (hq : v ≤ qty) :
    dget (remove_item stock item (PyVal.int qty)) item = Option.none := by
  simp only [remove_item, hv, isInstInt, toInt]
  have hle : v - qty ≤ 0 := by omega
  simp [hle, dget_derase]

/-- Witness for C3 at a concrete input: removing 5 of an item whose
current quantity is 3 leaves it absent. -/
theorem remove_ge_current_deletes_witness :
    dget (remove_item [("apple", 3)] "apple" (PyVal.int 5)) "apple" = Option.none :=
  remove_ge_current_deletes [("apple", 3)] "apple" 3 5 (by decide) (by decide)

/-- C6: `add` with an item that is not text or a quantity that is not an
integer is a no-op: the mapping (and the caller's log list) is returned
unchanged, and no exception reaches the caller (the embedded operation
is total). -/
theorem add_invalid_type_noop (stock : Stock) (item qty : PyVal)
    (now : String) (logs : List String)
    (h : isInstStr item = false ∨ isInstInt qty = false) :
    add_item stock item qty now logs = (stock, logs) := by
  rcases h with h | h <;> simp [add_item, h]

/-- Witness for C6 at a concrete input: adding with a list quantity
leaves the mapping unchanged. -/
theorem add_invalid_type_noop_witness :
    add_item [("apple", 3)] (PyVal.str "apple") (PyVal.list [1]) "" [] =
      ([("apple", 3)], []) :=
  add_invalid_type_noop [("apple", 3)] (PyVal.str "apple") (PyVal.list [1]) "" []
    (Or.inr (by decide))

/-- C7: `remove` on an item absent from the mapping raises nothing and
returns the mapping unchanged. -/
theorem remove_absent_noop (stock : Stock) (item : String) (qty : PyVal)
    (h : dget stock item = Option.none) :
    remove_item stock item qty = stock := by
  simp [remove_item, h]

/-- Witness for C7 at a concrete input: removing an absent item from a
one-entry mapping returns it unchanged. -/
theorem remove_absent_noop_witness :
    remove_item [("apple", 3)] "orange" (PyVal.int 1) = [("apple", 3)] :=
  remove_absent_noop [("apple", 3)] "orange" (PyVal.int 1) (by decide)

/-- C9: `get_qty` returns the stored quantity when the item is present
and 0 when it is absent; it is a pure total function on the mapping
(never fails, mutates nothing). -/
theorem get_qty_spec (stock : Stock) (item : String) :
    (dget stock item = Option.none → get_qty stock item = 0) ∧
      (∀ v, dget stock item = some v → get_qty stock item = v) := by
  constructor
  · intro h
    simp [get_qty, dgetD, h]
  · intro v h
    simp [get_qty, dgetD, h]

/-- Witness for C9 at a concrete input: the stored quantity 3 is
returned for a present item. -/
theorem get_qty_spec_witness : get_qty [("apple", 3)] "apple" = 3 :=
  (get_qty_spec [("apple", 3)] "apple").2 3 (by decide)

/-- C10: `add` treats booleans as valid integers (Python's `bool` is a
subclass of `int`): adding `True` increments the quantity by 1, and
adding `False` increments by 0 while still storing the key, instead of
taking the invalid-type branch. -/
theorem add_bool_qty (stock : Stock) (item : String) (now : String)
    (logs : List String) :
    get_qty (add_item stock (PyVal.str item) (PyVal.bool true) now logs).1 item =
        get_qty stock item + 1 ∧
      dget (add_item stock (PyVal.str item) (PyVal.bool false) now logs).1 item =
        some (get_qty stock item) := by
  constructor
  · simp [add_item, isInstStr, isInstInt, strVal, toInt, get_qty, dgetD, dget_dset]
  · simp [add_item, isInstStr, isInstInt, strVal, toInt, get_qty, dgetD, dget_dset]

/-! ### Persistence lemmas -/

theorem fieldsToStock_map (stock : Stock) :
    fieldsToStock (stock.map (fun kv => (kv.1, JSON.int kv.2))) = some stock := by
  induction stock with
  | nil => simp [fieldsToStock]
  | cons kv rest ih =>
    obtain ⟨k, v⟩ := kv
    simp [fieldsToStock, ih]

/-- C4: saving a stock mapping and loading the same path yields a JSON
object that reads back as a mapping equal to the saved one (same keys
and integer values). -/
theorem save_then_load_roundtrip (stock : Stock) (file : String) (fs : FS) :
    stockOfJSON (load_data (save_data stock file fs) file) = some stock := by
  simp [save_data, load_data, stockToJSON, stockOfJSON, fieldsToStock_map]

/-- C5 counterexample: a file holding text that parses to a JSON list is
not invalid to `json.load`; `load_data` returns the parsed list, not an
empty mapping. -/
theorem load_valid_list_cex :
    load_data (fun _ => FileContent.value (JSON.arr [])) "inventory.json" ≠
      JSON.obj [] := by
  simp [load_data]

/-- C5 (amended): `load` on a file whose content fails structured
parsing (for example truncated text) returns an empty mapping; content
that parses to a non-object value, such as a structured list, is
returned as parsed rather than replaced by an empty mapping. -/
theorem load_unparsable_returns_empty (fs : FS) (file : String)
    (h : fs file = FileContent.invalid) :
    load_data fs file = JSON.obj [] := by
  simp [load_data, h]

/-- Witness for the amended C5 at a concrete input: a path holding
unparsable text loads as the empty mapping. -/
theorem load_unparsable_returns_empty_witness :
    load_data (fun _ => FileContent.invalid) "inventory.json" = JSON.obj [] :=
  load_unparsable_returns_empty (fun _ => FileContent.invalid) "inventory.json" rfl

/-- C8: `load` on a path with no file returns an empty mapping instead
of raising to the caller (the embedded operation is total). -/
theorem load_missing_returns_empty (fs : FS) (file : String)
    (h : fs file = FileContent.missing) :
    load_data fs file = JSON.obj [] := by
  simp [load_data, h]

/-- Witness for C8 at a concrete input: loading a path that holds no
file yields the empty mapping. -/
theorem load_missing_returns_empty_witness :
    load_data (fun _ => FileContent.missing) "inventory.json" = JSON.obj [] :=
  load_missing_returns_empty (fun _ => FileContent.missing) "inventory.json" rfl

/-! ### Invariant preservation -/

theorem posInv_add (s : Stock) (item qty : PyVal) (now : String)
    (logs : List String) (hs : PosInv s)
    (hpos : (isInstStr item && isInstInt qty) = true → 0 < toInt qty) :
    PosInv (add_item s item qty now logs).1 := by
  by_cases hg : (isInstStr item && isInstInt qty) = true
  · have hqpos : 0 < toInt qty := hpos hg
    intro k v hkv
    simp only [add_item, hg, Bool.not_true, Bool.false_eq_true, if_false] at hkv
    rw [dget_dset] at hkv
    by_cases hk : k = strVal item
    · rw [if_pos hk] at hkv
      have h0 : 0 ≤ dgetD s (strVal item) 0 := by
        cases hd : dget s (strVal item) with
        | none => simp [dgetD, hd]
        | some w =>
          have hw := hs _ _ hd
          simp only [dgetD, hd, Option.getD_some]
          omega
      have hv : dgetD s (strVal item) 0 + toInt qty = v := by
        exact Option.some.inj hkv
      omega
    · rw [if_neg hk] at hkv
      exact hs k v hkv
  · have hg2 : (isInstStr item && isInstInt qty) = false := by
      cases h3 : (isInstStr item && isInstInt qty)
      · rfl
      · exact absurd h3 hg
    intro k v hkv
    simp only [add_item, hg2, Bool.not_false, if_true] at hkv
    exact hs k v hkv

theorem posInv_remove (s : Stock) (item : String) (qty : PyVal)
    (hs : PosInv s) : PosInv (remove_item s item qty) := by
  unfold remove_item
  cases hd : dget s item with
  | none => exact hs
  | some w =>
    by_cases hq : isInstInt qty = true
    · simp only [hq, if_true]
      by_cases hle : w - toInt qty ≤ 0
      · rw [if_pos hle]
        intro k v hkv
        rw [dget_derase] at hkv
        by_cases hk : k = item
        · rw [if_pos hk] at hkv
          exact Option.noConfusion hkv
        · rw [if_neg hk] at hkv
          rw [dget_dset, if_neg hk] at hkv
          exact hs k v hkv
      · rw [if_neg hle]
        intro k v hkv
        rw [dget_dset] at hkv
        by_cases hk : k = item
        · rw [if_pos hk] at hkv
          have hv : w - toInt qty = v := Option.some.inj hkv
          omega
        · rw [if_neg hk] at hkv
          exact hs k v hkv
    · have hq2 : isInstInt qty = false := by
        cases h3 : isInstInt qty
        · rfl
        · exact absurd h3 hq
      simp only [hq2, Bool.false_eq_true, if_false]
      exact hs

theorem posInv_applyOp (s : Stock) (op : Op) (hs : PosInv s)
    (hop : isPosAdd op = true) : PosInv (applyOp s op) := by
  cases op with
  | addOp item qty =>
    refine posInv_add s item qty "" [] hs ?hp
    intro hg
    have h2 : (!(isInstStr item && isInstInt qty) || decide (0 < toInt qty)) = true := hop
    rw [hg] at h2
    simpa using h2
  | removeOp item qty => exact posInv_remove s item qty hs

theorem posInv_foldl (ops : List Op) (s : Stock) (hs : PosInv s)
    (hops : ∀ op ∈ ops, isPosAdd op = true) :
    PosInv (List.foldl applyOp s ops) := by
  induction ops generalizing s with
  | nil => exact hs
  | cons op rest ih =>
    simp only [List.foldl_cons]
    refine ih _ (posInv_applyOp s op hs (hops op ?h1)) (fun o ho => hops o ?h2)
    · simp
    · simp [ho]

/-- C1 counterexample: the claim as stated fails, because `add` performs
no positivity check: a single add of quantity 0 stores the key with a
non-positive (zero) quantity that nothing deletes. -/
theorem run_posInv_cex :
    ¬ PosInv (run [Op.addOp (PyVal.str "a") (PyVal.int 0)]) :=
  fun h => absurd (h "a" 0 (by decide)) (by decide)

/-- C1 (amended): over every sequence of add and remove operations from
the empty mapping in which every add that passes the type guard adds a
strictly positive quantity, every key present afterwards has a strictly
positive quantity: a removal that drives a quantity to zero or below
deletes the key, so the mapping never durably holds a non-positive
quantity. -/
theorem run_posInv (ops : List Op)
    (hops : ∀ op ∈ ops, isPosAdd op = true) : PosInv (run ops) :=
  posInv_foldl ops [] (fun _ _ h => Option.noConfusion h) hops

/-- Witness for the amended C1 at a concrete input: after adding 10
apples and removing 3, every present key has positive quantity. -/
theorem run_posInv_witness :
    PosInv (run [Op.addOp (PyVal.str "apple") (PyVal.int 10),
      Op.removeOp "apple" (PyVal.int 3)]) :=
  run_posInv _ (by decide)

end Inventory
